import Mathlib

/-!
# Verification of the wmidi MIDI 1.0 codec

Shallow embedding of the `wmidi` Rust crate (MIDI 1.0 message codec plus a
Standard MIDI File serializer) and proofs about its specified behaviour.

The repository contains two revisions of the message codec:

* the current modular revision (`src/byte.rs`, `src/error.rs`,
  `src/midi_message.rs`, `src/note.rs`), embedded in namespace `Wmidi`;
* a legacy single-file revision (`src/lib.rs`, in which `U7`, `U14` and
  `Note` are plain integer aliases and there is no `OwnedSysEx` variant),
  embedded in namespace `Wmidi.Legacy`;

plus the SMF serializer (`src/smf.rs`), embedded in namespace `Wmidi.Smf`.

Machine integers (`u8`, `u16`, `u32`, `u64`, `i16`) are embedded as `Nat`
(resp. `Int` for `i16`); range side conditions are carried as explicit
hypotheses where they matter.  Byte buffers are `List Nat`.  Fallible Rust
functions return `Except`; the decoder, whose `unreachable!()` arm is
actually reachable, returns a dedicated result type with a `panic` outcome.
-/

deriving instance DecidableEq for Except

namespace Wmidi

/-- Decode-side error type, from `src/error.rs` (`FromBytesError`, re-exported
by the crate as `Error`).  One constructor per Rust variant. -/
inductive FromBytesError : Type where
  | channelOutOfRange : FromBytesError
  | noBytes : FromBytesError
  | noSysExEndByte : FromBytesError
  | notEnoughBytes : FromBytesError
  | unexpectedEndSysExByte : FromBytesError
  | unexpectedNonSysExEndByte (b : Nat) : FromBytesError
  | unexpectedDataByte : FromBytesError
  | unexpectedStatusByte : FromBytesError
  | noteOutOfRange : FromBytesError
  | dataByteOutOfRange : FromBytesError
  | u14OutOfRange : FromBytesError
deriving DecidableEq, Repr

/-- Encode-side error type, from `src/error.rs` (`ToSliceError`). -/
inductive ToSliceError : Type where
  | bufferTooSmall : ToSliceError
deriving DecidableEq, Repr

/-- `U7` from `src/byte.rs`: `pub struct U7(pub(crate) u8)`.  The wrapper
stores the `u8` verbatim (the unchecked constructor does no masking), so the
embedding wraps a bare `Nat`; validity (`data ≤ 127`) is a side condition. -/
structure U7 : Type where
  data : Nat
deriving DecidableEq, Repr

/-- `u8::from(U7)` (src/byte.rs): returns the stored byte. -/
def U7.toNat (a : U7) : Nat := a.data

/-- `U7::try_from(u8)` from `src/byte.rs`: error iff `data > U7::MAX = 127`. -/
def U7.tryFrom (data : Nat) : Except FromBytesError U7 :=
  if data > 127 then .error .dataByteOutOfRange else .ok ⟨data⟩

/-- Validity of a `U7` value (the invariant checked construction guarantees). -/
def U7.valid (a : U7) : Bool := a.data < 128

/-- `U14` from `src/byte.rs`: `pub struct U14(u16)`. -/
structure U14 : Type where
  data : Nat
deriving DecidableEq, Repr

/-- `u16::from(U14)` (src/byte.rs): returns the stored value. -/
def U14.toNat (a : U14) : Nat := a.data

/-- `U14::try_from(u16)` from `src/byte.rs`: error iff `data > U14::MAX = 16383`. -/
def U14.tryFrom (data : Nat) : Except FromBytesError U14 :=
  if data > 16383 then .error .u14OutOfRange else .ok ⟨data⟩

/-- Validity of a `U14` value. -/
def U14.valid (a : U14) : Bool := a.data < 16384

/-- The MIDI channel enum (16 variants), identical in both revisions
(`src/midi_message.rs` and `src/lib.rs`). -/
inductive Channel : Type where
  | Ch1 | Ch2 | Ch3 | Ch4 | Ch5 | Ch6 | Ch7 | Ch8
  | Ch9 | Ch10 | Ch11 | Ch12 | Ch13 | Ch14 | Ch15 | Ch16
deriving DecidableEq, Repr

/-- `Channel::from_index` (src/midi_message.rs): match on 0..=15, else
`ChannelOutOfRange`. -/
def Channel.fromIndex (i : Nat) : Except FromBytesError Channel :=
  if i = 0 then .ok .Ch1
  else if i = 1 then .ok .Ch2
  else if i = 2 then .ok .Ch3
  else if i = 3 then .ok .Ch4
  else if i = 4 then .ok .Ch5
  else if i = 5 then .ok .Ch6
  else if i = 6 then .ok .Ch7
  else if i = 7 then .ok .Ch8
  else if i = 8 then .ok .Ch9
  else if i = 9 then .ok .Ch10
  else if i = 10 then .ok .Ch11
  else if i = 11 then .ok .Ch12
  else if i = 12 then .ok .Ch13
  else if i = 13 then .ok .Ch14
  else if i = 14 then .ok .Ch15
  else if i = 15 then .ok .Ch16
  else .error .channelOutOfRange

/-- `Channel::index` (src/midi_message.rs): the wire nibble, 0..=15. -/
def Channel.index : Channel → Nat
  | .Ch1 => 0 | .Ch2 => 1 | .Ch3 => 2 | .Ch4 => 3
  | .Ch5 => 4 | .Ch6 => 5 | .Ch7 => 6 | .Ch8 => 7
  | .Ch9 => 8 | .Ch10 => 9 | .Ch11 => 10 | .Ch12 => 11
  | .Ch13 => 12 | .Ch14 => 13 | .Ch15 => 14 | .Ch16 => 15

/-- `Note` from `src/note.rs`: a `#[repr(u8)]` enum with 128 variants whose
discriminants are exactly 0..=127; `From<U7>`/`u8::from` convert through the
discriminant (`transmute` / `as u8`).  The enum is embedded by its
discriminant value. -/
structure Note : Type where
  val : Nat
deriving DecidableEq, Repr

/-- `Note::from(U7)` (src/note.rs `impl From<crate::U7> for Note`, a
transmute of the stored byte). -/
def Note.fromU7 (n : U7) : Note := ⟨n.data⟩

/-- `u8::from(Note)` (src/note.rs): the discriminant. -/
def Note.toNat (n : Note) : Nat := n.val

/-- Validity of a `Note` (a discriminant that names an actual variant). -/
def Note.valid (n : Note) : Bool := n.val < 128

/-- `MidiMessage` from `src/midi_message.rs` (current revision): the tagged
union over channel-voice, SysEx (borrowed and owned), System Common and
Real-Time messages, plus the `Reserved` catch-all holding a raw status byte.
The borrowed slice `&[U7]` and owned `Vec<U7>` payloads are both embedded as
`List U7`; the variant tag keeps them distinct, exactly as the derived
`PartialEq` does in Rust. -/
inductive MidiMessage : Type where
  | NoteOff (c : Channel) (n : Note) (v : U7)
  | NoteOn (c : Channel) (n : Note) (v : U7)
  | PolyphonicKeyPressure (c : Channel) (n : Note) (v : U7)
  | ControlChange (c : Channel) (n : U7) (v : U7)
  | ProgramChange (c : Channel) (p : U7)
  | ChannelPressure (c : Channel) (v : U7)
  | PitchBendChange (c : Channel) (b : U14)
  | SysEx (d : List U7)
  | OwnedSysEx (d : List U7)
  | MidiTimeCode (d : U7)
  | SongPositionPointer (p : U14)
  | SongSelect (s : U7)
  | Reserved (b : Nat)
  | TuneRequest
  | TimingClock
  | Start
  | Continue
  | Stop
  | ActiveSensing
  | Reset
deriving DecidableEq, Repr

/-- `combine_data` (src/midi_message.rs): `lower + 128 * higher`, stored via
the unchecked `U14` constructor. -/
def combineData (lower higher : U7) : U14 := ⟨lower.data + 128 * higher.data⟩

/-- `split_data` (src/midi_message.rs): `(value % 128, value / 128)`. -/
def splitData (data : U14) : Nat × Nat := (data.data % 128, data.data / 128)

/-- `is_status_byte` (src/midi_message.rs): `b & 0x80 == 0x80`. -/
def isStatusByte (b : Nat) : Bool := b &&& 0x80 == 0x80

/-- `valid_data_byte` (src/midi_message.rs): checked `U7` construction with
the error replaced by `UnexpectedStatusByte`. -/
def validDataByte (b : Nat) : Except FromBytesError U7 :=
  match U7.tryFrom b with
  | .error _ => .error .unexpectedStatusByte
  | .ok v => .ok v

/-- `MidiMessage::bytes_size` (src/midi_message.rs lines 279-302), the table
of wire sizes, one arm per variant exactly as in the source. -/
def MidiMessage.bytesSize : MidiMessage → Nat
  | .NoteOff _ _ _ => 3
  | .NoteOn _ _ _ => 3
  | .PolyphonicKeyPressure _ _ _ => 3
  | .ControlChange _ _ _ => 3
  | .ProgramChange _ _ => 2
  | .ChannelPressure _ _ => 2
  | .PitchBendChange _ _ => 3
  | .SysEx b => 2 + b.length
  | .OwnedSysEx b => 2 + b.length
  | .MidiTimeCode _ => 2
  | .SongPositionPointer _ => 3
  | .SongSelect _ => 2
  | .Reserved _ => 1
  | .TuneRequest => 1
  | .TimingClock => 1
  | .Start => 1
  | .Continue => 1
  | .Stop => 1
  | .ActiveSensing => 1
  | .Reset => 1

/-- The wire bytes a message writes: the contents `MidiMessage::copy_to_slice`
(src/midi_message.rs lines 162-217) stores into the first `bytes_size` bytes
of the destination.  Each arm is the byte array the source copies, with
SysEx assembled as lead byte, payload (`U7::data_to_bytes`, the identity on
stored bytes), terminator. -/
def MidiMessage.messageBytes : MidiMessage → List Nat
  | .NoteOff a b c => [0x80 ||| a.index, b.toNat, c.toNat]
  | .NoteOn a b c => [0x90 ||| a.index, b.toNat, c.toNat]
  | .PolyphonicKeyPressure a b c => [0xA0 ||| a.index, b.toNat, c.toNat]
  | .ControlChange a b c => [0xB0 ||| a.index, b.toNat, c.toNat]
  | .ProgramChange a b => [0xC0 ||| a.index, b.toNat]
  | .ChannelPressure a b => [0xD0 ||| a.index, b.toNat]
  | .PitchBendChange a b => [0xE0 ||| a.index, (splitData b).1, (splitData b).2]
  | .SysEx b => 0xF0 :: b.map U7.toNat ++ [0xF7]
  | .OwnedSysEx b => 0xF0 :: b.map U7.toNat ++ [0xF7]
  | .MidiTimeCode a => [0xF1, a.toNat]
  | .SongPositionPointer a => [0xF2, (splitData a).1, (splitData a).2]
  | .SongSelect a => [0xF3, a.toNat]
  | .Reserved a => [a]
  | .TuneRequest => [0xF6]
  | .TimingClock => [0xF8]
  | .Start => [0xFA]
  | .Continue => [0xFB]
  | .Stop => [0xFC]
  | .ActiveSensing => [0xFE]
  | .Reset => [0xFF]

/-- `MidiMessage::copy_to_slice` (src/midi_message.rs): fails with
`BufferTooSmall` when the destination is shorter than `bytes_size`, otherwise
overwrites the first `bytes_size` bytes with the wire bytes (the rest of the
destination is untouched) and returns the new buffer contents together with
the count written, which the source returns as `bytes_size`. -/
def MidiMessage.copyToSlice (m : MidiMessage) (slice : List Nat) :
    Except ToSliceError (List Nat × Nat) :=
  if slice.length < m.bytesSize then .error .bufferTooSmall
  else .ok (m.messageBytes ++ slice.drop m.bytesSize, m.bytesSize)

/-- The `io::Read` impl for `MidiMessage` (src/midi_message.rs lines
346-353): delegate to `copy_to_slice`, mapping `BufferTooSmall` to `Ok(0)`
with the buffer untouched.  The result is the buffer after the call and the
returned count (the Rust impl never returns `Err`). -/
def MidiMessage.read (m : MidiMessage) (buf : List Nat) : List Nat × Nat :=
  match m.copyToSlice buf with
  | .ok (buf', n) => (buf', n)
  | .error .bufferTooSmall => (buf, 0)

/-- `MidiMessage::drop_unowned_sysex` (src/midi_message.rs lines 221-246):
`None` for a borrowed `SysEx`, `Some` of the identical message otherwise,
one arm per variant exactly as in the source. -/
def MidiMessage.dropUnownedSysex : MidiMessage → Option MidiMessage
  | .NoteOff a b c => some (.NoteOff a b c)
  | .NoteOn a b c => some (.NoteOn a b c)
  | .PolyphonicKeyPressure a b c => some (.PolyphonicKeyPressure a b c)
  | .ControlChange a b c => some (.ControlChange a b c)
  | .ProgramChange a b => some (.ProgramChange a b)
  | .ChannelPressure a b => some (.ChannelPressure a b)
  | .PitchBendChange a b => some (.PitchBendChange a b)
  | .SysEx _ => none
  | .OwnedSysEx bytes => some (.OwnedSysEx bytes)
  | .MidiTimeCode a => some (.MidiTimeCode a)
  | .SongPositionPointer a => some (.SongPositionPointer a)
  | .SongSelect a => some (.SongSelect a)
  | .Reserved a => some (.Reserved a)
  | .TuneRequest => some .TuneRequest
  | .TimingClock => some .TimingClock
  | .Start => some .Start
  | .Continue => some .Continue
  | .Stop => some .Stop
  | .ActiveSensing => some .ActiveSensing
  | .Reset => some .Reset

/-- Outcome of running the decoder: a message, a returned error, or a panic.
`panic` models the `unreachable!()` arms of `MidiMessage::try_from` —
aborting the process rather than returning. -/
inductive DecodeResult : Type where
  | ok (m : MidiMessage)
  | err (e : FromBytesError)
  | panic
deriving DecidableEq, Repr

/-- Lift the error-or-message result of a helper into a `DecodeResult`
(Rust's implicit `Result` conversion on the SysEx path). -/
def DecodeResult.ofExcept : Except FromBytesError MidiMessage → DecodeResult
  | .error e => .err e
  | .ok m => .ok m

/-- Model of Rust's `?` on one eagerly-computed data byte: propagate the
error, otherwise build the message from the value. -/
def with1 (da : Except FromBytesError U7) (k : U7 → MidiMessage) : DecodeResult :=
  match da with
  | .error e => .err e
  | .ok a => .ok (k a)

/-- Model of Rust's `?` on two eagerly-computed data bytes, first byte's
error taking precedence as in the source's evaluation order. -/
def with2 (da db : Except FromBytesError U7) (k : U7 → U7 → MidiMessage) :
    DecodeResult :=
  match da with
  | .error e => .err e
  | .ok a =>
    match db with
    | .error e => .err e
    | .ok b => .ok (k a b)

/-- `MidiMessage::new_sysex` (src/midi_message.rs lines 327-342): scan the
bytes after the 0xF0 lead for the first status byte; none found is
`NoSysExEndByte`; a terminator other than 0xF7 is
`UnexpectedNonSysExEndByte`; otherwise the bytes strictly between lead and
terminator become the (unchecked, verbatim) `U7` payload. -/
def MidiMessage.newSysex (bytes : List Nat) : Except FromBytesError MidiMessage :=
  match (bytes.drop 1).findIdx? (fun b => isStatusByte b) with
  | none => .error .noSysExEndByte
  | some i =>
    let endByte := (bytes.drop 1).getD i 0
    if endByte ≠ 0xF7 then .error (.unexpectedNonSysExEndByte endByte)
    else .ok (.SysEx (((bytes.drop 1).take i).map fun x => ⟨x⟩))

/-- `MidiMessage::try_from(&[u8])` (src/midi_message.rs lines 95-148).  The
source's `match` dispatch on `bytes[0] & 0xF0` (and, in the `0xF0` arm, on
`bytes[0]`) is written as the equivalent chain of equality tests, with the
two `unreachable!()` default arms mapped to `DecodeResult.panic`.  Note that
the first `unreachable!()` default is in fact reached whenever `bytes[0]` is
a data byte (high nibble 0x0-0x7): no arm of the outer match covers it. -/
def MidiMessage.tryFrom (bytes : List Nat) : DecodeResult :=
  match bytes with
  | [] => .err .noBytes
  | b0 :: _ =>
    match Channel.fromIndex (b0 &&& 0x0F) with
    | .error e => .err e
    | .ok chan =>
      let dataA : Except FromBytesError U7 :=
        match bytes[1]? with
        | none => .error .notEnoughBytes
        | some b => validDataByte b
      let dataB : Except FromBytesError U7 :=
        match bytes[2]? with
        | none => .error .notEnoughBytes
        | some b => validDataByte b
      let hi := b0 &&& 0xF0
      if hi = 0x80 then with2 dataA dataB fun a b => .NoteOff chan (Note.fromU7 a) b
      else if hi = 0x90 then with2 dataA dataB fun a b => .NoteOn chan (Note.fromU7 a) b
      else if hi = 0xA0 then
        with2 dataA dataB fun a b => .PolyphonicKeyPressure chan (Note.fromU7 a) b
      else if hi = 0xB0 then with2 dataA dataB fun a b => .ControlChange chan a b
      else if hi = 0xC0 then with1 dataA fun a => .ProgramChange chan a
      else if hi = 0xD0 then with1 dataA fun a => .ChannelPressure chan a
      else if hi = 0xE0 then with2 dataA dataB fun a b => .PitchBendChange chan (combineData a b)
      else if hi = 0xF0 then
        if b0 = 0xF0 then .ofExcept (MidiMessage.newSysex bytes)
        else if b0 = 0xF1 then with1 dataA fun a => .MidiTimeCode a
        else if b0 = 0xF2 then with2 dataA dataB fun a b => .SongPositionPointer (combineData a b)
        else if b0 = 0xF3 then with1 dataA fun a => .SongSelect a
        else if b0 = 0xF4 ∨ b0 = 0xF5 then .ok (.Reserved b0)
        else if b0 = 0xF6 then .ok .TuneRequest
        else if b0 = 0xF7 then .err .unexpectedEndSysExByte
        else if b0 = 0xF8 then .ok .TimingClock
        else if b0 = 0xF9 then .ok (.Reserved b0)
        else if b0 = 0xFA then .ok .Start
        else if b0 = 0xFB then .ok .Continue
        else if b0 = 0xFC then .ok .Stop
        else if b0 = 0xFD then .ok (.Reserved b0)
        else if b0 = 0xFE then .ok .ActiveSensing
        else if b0 = 0xFF then .ok .Reset
        else .panic
      else .panic

/-- The range invariants that make a `MidiMessage` value constructible
through the crate's API: every `U7` field holds at most 127 (checked
construction validates this; unchecked construction makes it a caller
obligation), every `Note` discriminant names a variant, every `U14` holds at
most 16383, and `Reserved` holds a `u8`. -/
def MidiMessage.constructible : MidiMessage → Bool
  | .NoteOff _ n v => n.valid && v.valid
  | .NoteOn _ n v => n.valid && v.valid
  | .PolyphonicKeyPressure _ n v => n.valid && v.valid
  | .ControlChange _ n v => n.valid && v.valid
  | .ProgramChange _ p => p.valid
  | .ChannelPressure _ v => v.valid
  | .PitchBendChange _ b => b.valid
  | .SysEx d => d.all U7.valid
  | .OwnedSysEx d => d.all U7.valid
  | .MidiTimeCode d => d.valid
  | .SongPositionPointer p => p.valid
  | .SongSelect s => s.valid
  | .Reserved b => b < 256
  | _ => true

/-- Discriminator: is this the owned SysEx variant? -/
def MidiMessage.isOwnedSysEx : MidiMessage → Bool
  | .OwnedSysEx _ => true
  | _ => false

/-- Discriminator: is this the `Reserved` variant? -/
def MidiMessage.isReservedMsg : MidiMessage → Bool
  | .Reserved _ => true
  | _ => false

/-- Discriminator: is this the borrowed `SysEx` variant? -/
def MidiMessage.isBorrowedSysEx : MidiMessage → Bool
  | .SysEx _ => true
  | _ => false

namespace Legacy

/-- The legacy `MidiMessage` from `src/lib.rs`: here `U7`, `U14`, `Note` and
friends are plain `u8`/`u16` aliases (embedded as `Nat`) and there is no
`OwnedSysEx` variant. -/
inductive MidiMessage : Type where
  | NoteOff (c : Channel) (n : Nat) (v : Nat)
  | NoteOn (c : Channel) (n : Nat) (v : Nat)
  | PolyphonicKeyPressure (c : Channel) (n : Nat) (v : Nat)
  | ControlChange (c : Channel) (n : Nat) (v : Nat)
  | ProgramChange (c : Channel) (p : Nat)
  | ChannelPressure (c : Channel) (v : Nat)
  | PitchBendChange (c : Channel) (b : Nat)
  | SysEx (d : List Nat)
  | MidiTimeCode (d : Nat)
  | SongPositionPointer (p : Nat)
  | SongSelect (s : Nat)
  | Reserved (b : Nat)
  | TuneRequest
  | TimingClock
  | Start
  | Continue
  | Stop
  | ActiveSensing
  | Reset
deriving DecidableEq, Repr

/-- `wire_size` (src/lib.rs lines 192-214), one arm per variant exactly as
in that file — including its `PitchBendChange => 2` arm. -/
def MidiMessage.wireSize : MidiMessage → Nat
  | .NoteOff _ _ _ => 3
  | .NoteOn _ _ _ => 3
  | .PolyphonicKeyPressure _ _ _ => 3
  | .ControlChange _ _ _ => 3
  | .ProgramChange _ _ => 2
  | .ChannelPressure _ _ => 2
  | .PitchBendChange _ _ => 2
  | .SysEx b => 2 + b.length
  | .MidiTimeCode _ => 2
  | .SongPositionPointer _ => 3
  | .SongSelect _ => 2
  | .Reserved _ => 1
  | .TuneRequest => 1
  | .TimingClock => 1
  | .Start => 1
  | .Continue => 1
  | .Stop => 1
  | .ActiveSensing => 1
  | .Reset => 1

/-- `split_data` (src/lib.rs): `[data % 128, data / 128]`. -/
def splitData (data : Nat) : List Nat := [data % 128, data / 128]

/-- The byte sequence `write` (src/lib.rs lines 232-264) emits to the
writer, concatenating the slices of its one, two or three `w.write` calls. -/
def MidiMessage.writeBytes : MidiMessage → List Nat
  | .NoteOff a b c => [0x80 ||| a.index, b, c]
  | .NoteOn a b c => [0x90 ||| a.index, b, c]
  | .PolyphonicKeyPressure a b c => [0xA0 ||| a.index, b, c]
  | .ControlChange a b c => [0xB0 ||| a.index, b, c]
  | .ProgramChange a b => [0xC0 ||| a.index, b]
  | .ChannelPressure a b => [0xD0 ||| a.index, b]
  | .PitchBendChange a b => [0xE0 ||| a.index] ++ splitData b
  | .SysEx b => [0xF0] ++ b ++ [0xF7]
  | .MidiTimeCode a => [0xF1, a]
  | .SongPositionPointer a => [0xF2] ++ splitData a
  | .SongSelect a => [0xF3, a]
  | .Reserved a => [a]
  | .TuneRequest => [0xF6]
  | .TimingClock => [0xF8]
  | .Start => [0xFA]
  | .Continue => [0xFB]
  | .Stop => [0xFC]
  | .ActiveSensing => [0xFE]
  | .Reset => [0xFF]

/-- `drop_sysex` (src/lib.rs lines 165-189), one arm per variant exactly as
written in the source — note the `NoteOn` arm constructs `NoteOff`. -/
def MidiMessage.dropSysex : MidiMessage → Option MidiMessage
  | .NoteOff a b c => some (.NoteOff a b c)
  | .NoteOn a b c => some (.NoteOff a b c)
  | .PolyphonicKeyPressure a b c => some (.PolyphonicKeyPressure a b c)
  | .ControlChange a b c => some (.ControlChange a b c)
  | .ProgramChange a b => some (.ProgramChange a b)
  | .ChannelPressure a b => some (.ChannelPressure a b)
  | .PitchBendChange a b => some (.PitchBendChange a b)
  | .SysEx _ => none
  | .MidiTimeCode a => some (.MidiTimeCode a)
  | .SongPositionPointer a => some (.SongPositionPointer a)
  | .SongSelect a => some (.SongSelect a)
  | .Reserved a => some (.Reserved a)
  | .TuneRequest => some .TuneRequest
  | .TimingClock => some .TimingClock
  | .Start => some .Start
  | .Continue => some .Continue
  | .Stop => some .Stop
  | .ActiveSensing => some .ActiveSensing
  | .Reset => some .Reset

end Legacy

namespace Smf

/-- SMF error type (src/smf.rs `Error`). -/
inductive SmfError : Type where
  | SingleTrackFormatContainsNoTracks
  | SingleTrackFormatContainsMoreThanOneTrack
  | DivisionTicksMustBePositive
deriving DecidableEq, Repr

/-- `Format` (src/smf.rs): the SMF format code, `#[repr(C)]` with
discriminants 0, 1, 2. -/
inductive Format : Type where
  | SingleTrack
  | MultipleTracks
  | MultipleSong
deriving DecidableEq, Repr

/-- `self.format as u16`: the discriminant. -/
def Format.code : Format → Nat
  | .SingleTrack => 0
  | .MultipleTracks => 1
  | .MultipleSong => 2

/-- `Division` (src/smf.rs): ticks per beat, an `i16` (embedded as `Int`). -/
inductive Division : Type where
  | TicksPerBeat (ticks : Int)
deriving DecidableEq, Repr

/-- `Division::encode` (src/smf.rs lines 213-219): `(*ticks & 0x7F) as u16`.
For an `i16`, `t & 0x7F` keeps the low 7 bits of the two's-complement
representation, which is `t mod 128` (in `[0, 127]`); the cast to `u16`
zero-extends. -/
def Division.encode : Division → Nat
  | .TicksPerBeat ticks => (ticks % 128).toNat

/-- `encode_varint` (src/smf.rs lines 221-242), the loop in push order: each
iteration takes the low 7 bits of `cur` (`cur & val_mask`), sets the
continuation bit 0x80 except on the first iteration, shifts `cur` right by
7 and stops when the shifted value reaches zero. -/
def encodeVarintLoop (cur : Nat) (continuation : Bool) : List Nat :=
  let toWrite := cur &&& 0x7F
  let toWrite := if continuation then toWrite ||| 0x80 else toWrite
  let cur' := cur >>> 7
  if cur' = 0 then [toWrite]
  else toWrite :: encodeVarintLoop cur' true
termination_by cur
decreasing_by
  rename_i h
  have h' : cur >>> 7 ≠ 0 := h
  have hc : 0 < cur := by
    rcases Nat.eq_zero_or_pos cur with rfl | hc
    · simp at h'
    · exact hc
  calc cur >>> 7 = cur / 2 ^ 7 := Nat.shiftRight_eq_div_pow cur 7
    _ < cur := Nat.div_lt_self hc (by norm_num)

/-- `encode_varint` (src/smf.rs): run the loop, then reverse the collected
bytes so the most significant group is emitted first. -/
def encodeVarint (val : Nat) : List Nat := (encodeVarintLoop val false).reverse

/-- The base-128 digits of `n`, most significant digit first (`[0]` for
zero).  This is the specification's description of the 7-bit groups of a
VLQ; it is compared against the source-derived `encodeVarint`. -/
def base128Digits (n : Nat) : List Nat :=
  if n < 128 then [n]
  else base128Digits (n / 128) ++ [n % 128]
termination_by n
decreasing_by
  rename_i h
  exact Nat.div_lt_self (by omega) (by norm_num)

/-- The VLQ encoding as the specification words it: the base-128 digits of
`n`, most significant first, with the continuation bit 0x80 set on every
emitted byte except the last.  Second, spec-side definition for the
refinement comparison with `encodeVarint`. -/
def specVlq (n : Nat) : List Nat :=
  (base128Digits n).dropLast.map (fun d => d ||| 0x80) ++ [(base128Digits n).getLastD 0]

/-- Big-endian bytes of a `u16` (`u16::to_be_bytes`). -/
def u16BE (n : Nat) : List Nat := [n / 256 % 256, n % 256]

/-- Big-endian bytes of a `u32` (`u32::to_be_bytes`). -/
def u32BE (n : Nat) : List Nat :=
  [n / 16777216 % 256, n / 65536 % 256, n / 256 % 256, n % 256]

/-- `MetaEvent` (src/smf.rs).  The Rust `String` payloads are embedded as
their UTF-8 byte sequences (`s.as_bytes()` is all the serializer reads). -/
inductive MetaEvent : Type where
  | SequenceNumber (s : List Nat)
  | TextEvent (s : List Nat)
  | CopyrightNotice (s : List Nat)
  | EndOfTrack
deriving DecidableEq, Repr

/-- `MetaEvent::event_code` (src/smf.rs). -/
def MetaEvent.eventCode : MetaEvent → Nat
  | .SequenceNumber _ => 0x00
  | .TextEvent _ => 0x01
  | .CopyrightNotice _ => 0x02
  | .EndOfTrack => 0x03

/-- `MetaEvent::data` (src/smf.rs): the payload bytes. -/
def MetaEvent.data : MetaEvent → List Nat
  | .SequenceNumber s => s
  | .TextEvent s => s
  | .CopyrightNotice s => s
  | .EndOfTrack => []

/-- The bytes `MetaEvent::encode` (src/smf.rs) writes:
`0xFF <event-code> <VLQ payload length> <payload>`. -/
def MetaEvent.encodeBytes (e : MetaEvent) : List Nat :=
  [0xFF, e.eventCode] ++ encodeVarint e.data.length ++ e.data

/-- `MetaEvent::bytes_size` (src/smf.rs): encode into a fresh buffer and
count. -/
def MetaEvent.bytesSize (e : MetaEvent) : Nat := e.encodeBytes.length

/-- `TrackEvent` (src/smf.rs): a delta-time (`u64`) with a MIDI message or a
meta event. -/
inductive TrackEvent : Type where
  | Midi (time : Nat) (event : MidiMessage)
  | Meta (time : Nat) (event : MetaEvent)
deriving DecidableEq, Repr

/-- `TrackEvent::time` (src/smf.rs). -/
def TrackEvent.time : TrackEvent → Nat
  | .Midi time _ => time
  | .Meta time _ => time

/-- The bytes `TrackEvent::encode` (src/smf.rs) writes: the VLQ delta-time
followed by the event's wire bytes (`MidiMessage` write / `MetaEvent`
encode). -/
def TrackEvent.encodeBytes : TrackEvent → List Nat
  | .Midi time event => encodeVarint time ++ event.messageBytes
  | .Meta time event => encodeVarint time ++ event.encodeBytes

/-- `TrackEvent::bytes_len` (src/smf.rs): VLQ delta-time length plus the
event's `bytes_size`. -/
def TrackEvent.bytesLen (e : TrackEvent) : Nat :=
  (encodeVarint e.time).length +
    match e with
    | .Midi _ event => event.bytesSize
    | .Meta _ event => event.bytesSize

/-- `SmfWriter` (src/smf.rs): format, division and the tracks. -/
structure SmfWriter : Type where
  format : Format
  division : Division
  tracks : List (List TrackEvent)
deriving DecidableEq, Repr

/-- `SmfWriter::validate` (src/smf.rs lines 46-68): `Format::SingleTrack`
requires exactly one track, then `Division::TicksPerBeat` must be positive. -/
def SmfWriter.validate (sw : SmfWriter) : Except SmfError Unit :=
  match (if sw.format = Format.SingleTrack then
          match sw.tracks.length with
          | 0 => Except.error SmfError.SingleTrackFormatContainsNoTracks
          | 1 => Except.ok ()
          | _ => Except.error SmfError.SingleTrackFormatContainsMoreThanOneTrack
         else Except.ok ()) with
  | .error e => .error e
  | .ok _ =>
    match sw.division with
    | .TicksPerBeat ticks =>
      if ticks ≤ 0 then .error .DivisionTicksMustBePositive else .ok ()

/-- The bytes `SmfWriter::encode_header` (src/smf.rs lines 71-83) writes:
`"MThd"`, u32-BE header length 6, u16-BE format code, u16-BE track count,
u16-BE encoded division. -/
def SmfWriter.encodeHeaderBytes (sw : SmfWriter) : List Nat :=
  [0x4D, 0x54, 0x68, 0x64] ++ u32BE 6 ++ u16BE sw.format.code ++
    u16BE sw.tracks.length ++ u16BE sw.division.encode

/-- The bytes `SmfWriter::encode_track` (src/smf.rs lines 95-104) writes for
one track: `"MTrk"`, the u32-BE sum of the events' `bytes_len`, then each
event's encoding. -/
def encodeTrackBytes (track : List TrackEvent) : List Nat :=
  [0x4D, 0x54, 0x72, 0x6B] ++
    u32BE ((track.map TrackEvent.bytesLen).sum) ++
    (track.map TrackEvent.encodeBytes).flatten

/-- `SmfWriter::encode` (src/smf.rs lines 39-43) as a transformer of the
destination: validate first — on failure return the error with the
destination untouched — then append the header chunk and every track chunk. -/
def SmfWriter.encode (sw : SmfWriter) (w : List Nat) :
    List Nat × Except SmfError Unit :=
  match sw.validate with
  | .error e => (w, .error e)
  | .ok _ =>
    (w ++ sw.encodeHeaderBytes ++ (sw.tracks.map encodeTrackBytes).flatten, .ok ())

end Smf

/-- `findIdx?` hits the first element satisfying the predicate: if nothing in
`pre` satisfies `p` and `c` does, the scan of `pre ++ c :: post` stops at
index `pre.length` (stated for an arbitrary start offset for the induction). -/
theorem findIdx?_first_aux (p : Nat → Bool) (pre : List Nat) (c : Nat) (post : List Nat)
    (i : Nat) (hpre : ∀ b ∈ pre, p b = false) (hc : p c = true) :
    List.findIdx? p (pre ++ c :: post) i = some (pre.length + i) := by
  induction pre generalizing i with
  | nil =>
    simp [List.findIdx?, hc]
  | cons a l ih =>
    have ha : p a = false := hpre a (by simp)
    simp only [List.cons_append, List.findIdx?, ha, Bool.false_eq_true, if_false,
      List.length_cons]
    rw [show l.append (c :: post) = l ++ c :: post from rfl,
      ih (i + 1) (fun b hb => hpre b (by simp [hb]))]
    congr 1
    omega

/-- Indexing with default at the junction of an append picks the junction
element. -/
theorem getD_append_length (pre : List Nat) (c : Nat) (post : List Nat) (d : Nat) :
    (pre ++ c :: post).getD pre.length d = c := by
  induction pre with
  | nil => rfl
  | cons a l ih => simpa using ih

/-- Any in-range index has a channel: `Channel::from_index` succeeds on
0..=15. -/
theorem Channel.fromIndex_ok_of_lt (i : Nat) (h : i < 16) :
    ∃ c, Channel.fromIndex i = .ok c := by
  interval_cases i <;> exact ⟨_, rfl⟩

/-- On a buffer led by 0xF0 the decoder dispatches to the SysEx scan. -/
theorem tryFrom_sysex_head (tail : List Nat) :
    MidiMessage.tryFrom (0xF0 :: tail) =
      DecodeResult.ofExcept (MidiMessage.newSysex (0xF0 :: tail)) := rfl

end Wmidi

namespace Wmidi

/-- C1: on any non-empty buffer whose first byte is a data byte (high bit
clear), `MidiMessage::try_from` reaches the outer `unreachable!()` arm and
panics — it does not return `UnexpectedDataByte` (or any error).  This
contradicts `src/error.rs`, which documents the (never-constructed)
`UnexpectedDataByte` variant as "The first byte of a midi message must be a
status byte". -/
theorem tryFrom_data_byte_first_panics (b0 : Nat) (rest : List Nat) (h : b0 < 0x80) :
    MidiMessage.tryFrom (b0 :: rest) = .panic := by
  obtain ⟨c, hc⟩ := Channel.fromIndex_ok_of_lt (b0 &&& 0x0F)
    (lt_of_le_of_lt Nat.and_le_right (by norm_num))
  have hhi : b0 &&& 0xF0 ≤ b0 := Nat.and_le_left
  simp only [MidiMessage.tryFrom, hc]
  iterate 8 rw [if_neg (by omega)]

/-- C1 witness: the concrete buffer `[0x00]` makes the decoder panic. -/
theorem tryFrom_data_byte_first_panics_witness :
    MidiMessage.tryFrom [0x00] = .panic :=
  tryFrom_data_byte_first_panics 0x00 [] (by norm_num)

set_option maxRecDepth 4000 in
/-- C5: the SysEx scan on a buffer led by 0xF0.  (i) If no byte after the
lead has its high bit set, decoding fails with `NoSysExEndByte`.  (ii) If the
first such byte is `c` (everything before it clear): when `c ≠ 0xF7` decoding
fails with `UnexpectedNonSysExEndByte c`, and when `c = 0xF7` decoding
returns a `SysEx` whose payload is exactly the bytes strictly between the
lead and the terminator — bytes after the terminator are ignored, and
`[0xF0, 0xF7]` gives the empty payload.  (iii) For bytes, "high bit set" is
exactly what `is_status_byte` tests. -/
theorem tryFrom_sysex_scan (tail : List Nat) :
    ((∀ b ∈ tail, isStatusByte b = false) →
      MidiMessage.tryFrom (0xF0 :: tail) = .err .noSysExEndByte)
  ∧ (∀ pre c post, tail = pre ++ c :: post →
      (∀ b ∈ pre, isStatusByte b = false) → isStatusByte c = true →
      ((c ≠ 0xF7 →
        MidiMessage.tryFrom (0xF0 :: tail) = .err (.unexpectedNonSysExEndByte c))
      ∧ (c = 0xF7 →
        MidiMessage.tryFrom (0xF0 :: tail) = .ok (.SysEx (pre.map fun x => ⟨x⟩)))))
  ∧ (∀ b, b < 256 → (isStatusByte b = true ↔ 0x80 ≤ b)) := by
  refine ⟨?_, ?_, by decide⟩
  · intro hall
    rw [tryFrom_sysex_head]
    unfold MidiMessage.newSysex
    have hd : (0xF0 :: tail).drop 1 = tail := rfl
    have hnone : (tail.findIdx? fun b => isStatusByte b) = none := by
      rw [List.findIdx?_eq_none_iff]
      simpa using hall
    rw [hd, hnone]
    rfl
  · rintro pre c post rfl hpre hc
    rw [tryFrom_sysex_head]
    unfold MidiMessage.newSysex
    have hd : (0xF0 :: (pre ++ c :: post)).drop 1 = pre ++ c :: post := rfl
    rw [hd, findIdx?_first_aux _ pre c post 0 hpre hc]
    simp only [Nat.add_zero, getD_append_length]
    constructor
    · intro hne
      rw [if_pos hne]
      rfl
    · intro heq
      subst heq
      rw [if_neg (by simp), List.take_left]
      rfl

/-- C5 witness: the three scan outcomes at concrete buffers, including the
empty SysEx `[0xF0, 0xF7]`. -/
theorem tryFrom_sysex_scan_witness :
    MidiMessage.tryFrom [0xF0, 1, 2, 3] = .err .noSysExEndByte
  ∧ MidiMessage.tryFrom [0xF0, 1, 0x90, 2, 0xF7] = .err (.unexpectedNonSysExEndByte 0x90)
  ∧ MidiMessage.tryFrom [0xF0, 0xF7] = .ok (.SysEx []) := by
  refine ⟨(tryFrom_sysex_scan [1, 2, 3]).1 (by decide), ?_, ?_⟩
  · exact ((tryFrom_sysex_scan [1, 0x90, 2, 0xF7]).2.1 [1] 0x90 [2, 0xF7] rfl
      (by decide) (by decide)).1 (by decide)
  · exact ((tryFrom_sysex_scan [0xF7]).2.1 [] 0xF7 [] rfl (by decide) (by decide)).2 rfl

/-- A data byte (value below 0x80) is accepted by `valid_data_byte`. -/
theorem validDataByte_ok (b : Nat) (h : b < 128) : validDataByte b = .ok ⟨b⟩ := by
  unfold validDataByte U7.tryFrom
  rw [if_neg (by omega)]

/-- A byte below 0x80 is not a status byte. -/
theorem isStatusByte_eq_false (b : Nat) (h : b < 128) : isStatusByte b = false := by
  have hle : b &&& 128 ≤ b := Nat.and_le_left
  unfold isStatusByte
  rw [beq_eq_false_iff_ne]
  omega

/-- Re-wrapping the bytes of a `U7` sequence is the identity. -/
theorem map_mk_toNat (d : List U7) :
    (d.map U7.toNat).map (fun x => (⟨x⟩ : U7)) = d := by
  induction d with
  | nil => rfl
  | cons a l ih =>
    cases a
    simp [U7.toNat, ih]

/-- `from_index` inverts `index`. -/
theorem Channel.fromIndex_index (c : Channel) :
    Channel.fromIndex c.index = .ok c := by
  cases c <;> rfl

/-- Decoding the encoding of a NoteOff message (any trailing bytes ignored). -/
theorem tryFrom_enc_noteOff (c : Channel) (nv vv : Nat) (extra : List Nat)
    (hn : nv < 128) (hv : vv < 128) :
    MidiMessage.tryFrom ((0x80 ||| c.index) :: nv :: vv :: extra) =
      .ok (.NoteOff c ⟨nv⟩ ⟨vv⟩) := by
  have h1 : (0x80 ||| c.index) &&& 0x0F = c.index := by cases c <;> decide
  have h2 : (0x80 ||| c.index) &&& 0xF0 = 0x80 := by cases c <;> decide
  simp only [MidiMessage.tryFrom, List.getElem?_cons_zero, List.getElem?_cons_succ,
    h1, h2, Channel.fromIndex_index, validDataByte_ok _ hn, validDataByte_ok _ hv,
    if_true, if_false]
  rfl

/-- Decoding the encoding of a NoteOn message. -/
theorem tryFrom_enc_noteOn (c : Channel) (nv vv : Nat) (extra : List Nat)
    (hn : nv < 128) (hv : vv < 128) :
    MidiMessage.tryFrom ((0x90 ||| c.index) :: nv :: vv :: extra) =
      .ok (.NoteOn c ⟨nv⟩ ⟨vv⟩) := by
  have h1 : (0x90 ||| c.index) &&& 0x0F = c.index := by cases c <;> decide
  have h2 : (0x90 ||| c.index) &&& 0xF0 = 0x90 := by cases c <;> decide
  simp only [MidiMessage.tryFrom, List.getElem?_cons_zero, List.getElem?_cons_succ,
    h1, h2, Channel.fromIndex_index, validDataByte_ok _ hn, validDataByte_ok _ hv,
    if_true, if_false]
  rfl

/-- Decoding the encoding of a PolyphonicKeyPressure message. -/
theorem tryFrom_enc_poly (c : Channel) (nv vv : Nat) (extra : List Nat)
    (hn : nv < 128) (hv : vv < 128) :
    MidiMessage.tryFrom ((0xA0 ||| c.index) :: nv :: vv :: extra) =
      .ok (.PolyphonicKeyPressure c ⟨nv⟩ ⟨vv⟩) := by
  have h1 : (0xA0 ||| c.index) &&& 0x0F = c.index := by cases c <;> decide
  have h2 : (0xA0 ||| c.index) &&& 0xF0 = 0xA0 := by cases c <;> decide
  simp only [MidiMessage.tryFrom, List.getElem?_cons_zero, List.getElem?_cons_succ,
    h1, h2, Channel.fromIndex_index, validDataByte_ok _ hn, validDataByte_ok _ hv,
    if_true, if_false]
  rfl

/-- Decoding the encoding of a ControlChange message. -/
theorem tryFrom_enc_cc (c : Channel) (nv vv : Nat) (extra : List Nat)
    (hn : nv < 128) (hv : vv < 128) :
    MidiMessage.tryFrom ((0xB0 ||| c.index) :: nv :: vv :: extra) =
      .ok (.ControlChange c ⟨nv⟩ ⟨vv⟩) := by
  have h1 : (0xB0 ||| c.index) &&& 0x0F = c.index := by cases c <;> decide
  have h2 : (0xB0 ||| c.index) &&& 0xF0 = 0xB0 := by cases c <;> decide
  simp only [MidiMessage.tryFrom, List.getElem?_cons_zero, List.getElem?_cons_succ,
    h1, h2, Channel.fromIndex_index, validDataByte_ok _ hn, validDataByte_ok _ hv,
    if_true, if_false]
  rfl

/-- Decoding the encoding of a ProgramChange message. -/
theorem tryFrom_enc_pc (c : Channel) (pv : Nat) (extra : List Nat) (hp : pv < 128) :
    MidiMessage.tryFrom ((0xC0 ||| c.index) :: pv :: extra) =
      .ok (.ProgramChange c ⟨pv⟩) := by
  have h1 : (0xC0 ||| c.index) &&& 0x0F = c.index := by cases c <;> decide
  have h2 : (0xC0 ||| c.index) &&& 0xF0 = 0xC0 := by cases c <;> decide
  simp only [MidiMessage.tryFrom, List.getElem?_cons_zero, List.getElem?_cons_succ,
    h1, h2, Channel.fromIndex_index, validDataByte_ok _ hp, if_true, if_false]
  rfl

/-- Decoding the encoding of a ChannelPressure message. -/
theorem tryFrom_enc_cp (c : Channel) (vv : Nat) (extra : List Nat) (hv : vv < 128) :
    MidiMessage.tryFrom ((0xD0 ||| c.index) :: vv :: extra) =
      .ok (.ChannelPressure c ⟨vv⟩) := by
  have h1 : (0xD0 ||| c.index) &&& 0x0F = c.index := by cases c <;> decide
  have h2 : (0xD0 ||| c.index) &&& 0xF0 = 0xD0 := by cases c <;> decide
  simp only [MidiMessage.tryFrom, List.getElem?_cons_zero, List.getElem?_cons_succ,
    h1, h2, Channel.fromIndex_index, validDataByte_ok _ hv, if_true, if_false]
  rfl

/-- Decoding the encoding of a PitchBendChange message: the two base-128
digits recombine to the original 14-bit value. -/
theorem tryFrom_enc_pb (c : Channel) (dv : Nat) (extra : List Nat) (hd : dv < 16384) :
    MidiMessage.tryFrom ((0xE0 ||| c.index) :: (dv % 128) :: (dv / 128) :: extra) =
      .ok (.PitchBendChange c ⟨dv⟩) := by
  have h1 : (0xE0 ||| c.index) &&& 0x0F = c.index := by cases c <;> decide
  have h2 : (0xE0 ||| c.index) &&& 0xF0 = 0xE0 := by cases c <;> decide
  simp only [MidiMessage.tryFrom, List.getElem?_cons_zero, List.getElem?_cons_succ,
    h1, h2, Channel.fromIndex_index, validDataByte_ok (dv % 128) (by omega),
    validDataByte_ok (dv / 128) (by omega), if_true, if_false]
  show DecodeResult.ok (.PitchBendChange c ⟨dv % 128 + 128 * (dv / 128)⟩) =
    DecodeResult.ok (.PitchBendChange c ⟨dv⟩)
  rw [Nat.mod_add_div]

/-- Decoding the encoding of a MidiTimeCode message. -/
theorem tryFrom_enc_mtc (dv : Nat) (extra : List Nat) (hd : dv < 128) :
    MidiMessage.tryFrom (0xF1 :: dv :: extra) = .ok (.MidiTimeCode ⟨dv⟩) := by
  simp only [MidiMessage.tryFrom, List.getElem?_cons_zero, List.getElem?_cons_succ,
    show (0xF1 &&& 0x0F : Nat) = 1 from by decide,
    show (0xF1 &&& 0xF0 : Nat) = 0xF0 from by decide,
    show Channel.fromIndex 1 = .ok .Ch2 from rfl,
    validDataByte_ok _ hd, if_true, if_false]
  rfl

/-- Decoding the encoding of a SongPositionPointer message. -/
theorem tryFrom_enc_spp (dv : Nat) (extra : List Nat) (hd : dv < 16384) :
    MidiMessage.tryFrom (0xF2 :: (dv % 128) :: (dv / 128) :: extra) =
      .ok (.SongPositionPointer ⟨dv⟩) := by
  simp only [MidiMessage.tryFrom, List.getElem?_cons_zero, List.getElem?_cons_succ,
    show (0xF2 &&& 0x0F : Nat) = 2 from by decide,
    show (0xF2 &&& 0xF0 : Nat) = 0xF0 from by decide,
    show Channel.fromIndex 2 = .ok .Ch3 from rfl,
    validDataByte_ok (dv % 128) (by omega), validDataByte_ok (dv / 128) (by omega),
    if_true, if_false]
  show DecodeResult.ok (.SongPositionPointer ⟨dv % 128 + 128 * (dv / 128)⟩) =
    DecodeResult.ok (.SongPositionPointer ⟨dv⟩)
  rw [Nat.mod_add_div]

/-- Decoding the encoding of a SongSelect message. -/
theorem tryFrom_enc_ss (sv : Nat) (extra : List Nat) (hs : sv < 128) :
    MidiMessage.tryFrom (0xF3 :: sv :: extra) = .ok (.SongSelect ⟨sv⟩) := by
  simp only [MidiMessage.tryFrom, List.getElem?_cons_zero, List.getElem?_cons_succ,
    show (0xF3 &&& 0x0F : Nat) = 3 from by decide,
    show (0xF3 &&& 0xF0 : Nat) = 0xF0 from by decide,
    show Channel.fromIndex 3 = .ok .Ch4 from rfl,
    validDataByte_ok _ hs, if_true, if_false]
  rfl

/-- Decoding the encoding of a (borrowed or owned) SysEx message: the scan
finds the 0xF7 terminator (the payload, being valid data bytes, contains no
status byte) and recovers exactly the payload; trailing bytes are ignored. -/
theorem tryFrom_enc_sysex (d : List U7) (extra : List Nat) (hd : d.all U7.valid = true) :
    MidiMessage.tryFrom (0xF0 :: (d.map U7.toNat ++ [0xF7]) ++ extra) =
      .ok (.SysEx d) := by
  have hpre : ∀ b ∈ d.map U7.toNat, isStatusByte b = false := by
    intro b hb
    obtain ⟨u, hu, rfl⟩ := List.mem_map.mp hb
    have := List.all_eq_true.mp hd u hu
    exact isStatusByte_eq_false _ (by simpa [U7.valid, U7.toNat] using this)
  have hassoc : (0xF0 :: (d.map U7.toNat ++ [0xF7]) ++ extra) =
      0xF0 :: (d.map U7.toNat ++ 0xF7 :: extra) := by
    simp
  rw [hassoc,
    ((tryFrom_sysex_scan (d.map U7.toNat ++ 0xF7 :: extra)).2.1 (d.map U7.toNat)
      0xF7 extra rfl hpre (by decide)).2 rfl,
    map_mk_toNat]

/-- C8: checked `U7` construction succeeds and round-trips on 0..=127 and
fails with `DataByteOutOfRange` on 128..=255; checked `U14` construction
succeeds and round-trips on 0..=16383 and fails with `U14OutOfRange` on
16384..=65535. -/
theorem checked_construction_spec (n : Nat) :
    (n ≤ 127 → U7.tryFrom n = .ok ⟨n⟩ ∧ (U7.mk n).toNat = n)
  ∧ (128 ≤ n → n ≤ 255 → U7.tryFrom n = .error .dataByteOutOfRange)
  ∧ (n ≤ 16383 → U14.tryFrom n = .ok ⟨n⟩ ∧ (U14.mk n).toNat = n)
  ∧ (16384 ≤ n → n ≤ 65535 → U14.tryFrom n = .error .u14OutOfRange) := by
  refine ⟨?_, ?_, ?_, ?_⟩
  · intro h
    refine ⟨?_, rfl⟩
    unfold U7.tryFrom
    rw [if_neg (by omega)]
  · intro h _
    unfold U7.tryFrom
    rw [if_pos (by omega)]
  · intro h
    refine ⟨?_, rfl⟩
    unfold U14.tryFrom
    rw [if_neg (by omega)]
  · intro h _
    unfold U14.tryFrom
    rw [if_pos (by omega)]

/-- C8 witness: the four regimes at concrete inputs. -/
theorem checked_construction_spec_witness :
    U7.tryFrom 100 = .ok ⟨100⟩
  ∧ U7.tryFrom 200 = .error .dataByteOutOfRange
  ∧ U14.tryFrom 10000 = .ok ⟨10000⟩
  ∧ U14.tryFrom 20000 = .error .u14OutOfRange :=
  ⟨((checked_construction_spec 100).1 (by norm_num)).1,
   (checked_construction_spec 200).2.1 (by norm_num) (by norm_num),
   ((checked_construction_spec 10000).2.2.1 (by norm_num)).1,
   (checked_construction_spec 20000).2.2.2 (by norm_num) (by norm_num)⟩

/-- Encoded length agrees with the `bytes_size` table, for every message. -/
theorem messageBytes_length (m : MidiMessage) :
    m.messageBytes.length = m.bytesSize := by
  cases m <;> simp [MidiMessage.messageBytes, MidiMessage.bytesSize] <;> omega

/-- Decoding the wire bytes of a constructible message, with arbitrary
trailing bytes, recovers the message: exactly, unless it was an `OwnedSysEx`
(which decodes to the borrowed `SysEx` with the same payload — a different
variant under the derived equality) or a `Reserved` holding a byte other
than 0xF4/0xF5/0xF9/0xFD (which the decoder never produces `Reserved` for). -/
theorem tryFrom_messageBytes (m : MidiMessage) (hm : m.constructible = true)
    (extra : List Nat) :
    (m.isOwnedSysEx = false → m.isReservedMsg = false →
      MidiMessage.tryFrom (m.messageBytes ++ extra) = .ok m)
  ∧ (∀ d, m = .OwnedSysEx d →
      MidiMessage.tryFrom (m.messageBytes ++ extra) = .ok (.SysEx d))
  ∧ (∀ b, m = .Reserved b → (b = 0xF4 ∨ b = 0xF5 ∨ b = 0xF9 ∨ b = 0xFD) →
      MidiMessage.tryFrom (m.messageBytes ++ extra) = .ok m) := by
  cases m with
  | NoteOff c n v =>
    obtain ⟨nv⟩ := n
    obtain ⟨vv⟩ := v
    simp only [MidiMessage.constructible, Bool.and_eq_true, Note.valid, U7.valid,
      decide_eq_true_eq] at hm
    refine ⟨fun _ _ => ?_, fun d h => by simp at h, fun b h _ => by simp at h⟩
    simpa [MidiMessage.messageBytes, Note.toNat, U7.toNat] using
      tryFrom_enc_noteOff c nv vv extra hm.1 hm.2
  | NoteOn c n v =>
    obtain ⟨nv⟩ := n
    obtain ⟨vv⟩ := v
    simp only [MidiMessage.constructible, Bool.and_eq_true, Note.valid, U7.valid,
      decide_eq_true_eq] at hm
    refine ⟨fun _ _ => ?_, fun d h => by simp at h, fun b h _ => by simp at h⟩
    simpa [MidiMessage.messageBytes, Note.toNat, U7.toNat] using
      tryFrom_enc_noteOn c nv vv extra hm.1 hm.2
  | PolyphonicKeyPressure c n v =>
    obtain ⟨nv⟩ := n
    obtain ⟨vv⟩ := v
    simp only [MidiMessage.constructible, Bool.and_eq_true, Note.valid, U7.valid,
      decide_eq_true_eq] at hm
    refine ⟨fun _ _ => ?_, fun d h => by simp at h, fun b h _ => by simp at h⟩
    simpa [MidiMessage.messageBytes, Note.toNat, U7.toNat] using
      tryFrom_enc_poly c nv vv extra hm.1 hm.2
  | ControlChange c n v =>
    obtain ⟨nv⟩ := n
    obtain ⟨vv⟩ := v
    simp only [MidiMessage.constructible, Bool.and_eq_true, U7.valid,
      decide_eq_true_eq] at hm
    refine ⟨fun _ _ => ?_, fun d h => by simp at h, fun b h _ => by simp at h⟩
    simpa [MidiMessage.messageBytes, U7.toNat] using
      tryFrom_enc_cc c nv vv extra hm.1 hm.2
  | ProgramChange c p =>
    obtain ⟨pv⟩ := p
    simp only [MidiMessage.constructible, U7.valid, decide_eq_true_eq] at hm
    refine ⟨fun _ _ => ?_, fun d h => by simp at h, fun b h _ => by simp at h⟩
    simpa [MidiMessage.messageBytes, U7.toNat] using tryFrom_enc_pc c pv extra hm
  | ChannelPressure c v =>
    obtain ⟨vv⟩ := v
    simp only [MidiMessage.constructible, U7.valid, decide_eq_true_eq] at hm
    refine ⟨fun _ _ => ?_, fun d h => by simp at h, fun b h _ => by simp at h⟩
    simpa [MidiMessage.messageBytes, U7.toNat] using tryFrom_enc_cp c vv extra hm
  | PitchBendChange c b =>
    obtain ⟨dv⟩ := b
    simp only [MidiMessage.constructible, U14.valid, decide_eq_true_eq] at hm
    refine ⟨fun _ _ => ?_, fun d h => by simp at h, fun b h _ => by simp at h⟩
    simpa [MidiMessage.messageBytes, splitData] using tryFrom_enc_pb c dv extra hm
  | SysEx d =>
    simp only [MidiMessage.constructible] at hm
    refine ⟨fun _ _ => ?_, fun d' h => by simp at h, fun b h _ => by simp at h⟩
    simpa [MidiMessage.messageBytes] using tryFrom_enc_sysex d extra hm
  | OwnedSysEx d =>
    simp only [MidiMessage.constructible] at hm
    refine ⟨fun h _ => by simp [MidiMessage.isOwnedSysEx] at h, fun d' h => ?_,
      fun b h _ => by simp at h⟩
    injection h with h'
    subst h'
    simpa [MidiMessage.messageBytes] using tryFrom_enc_sysex d extra hm
  | MidiTimeCode d =>
    obtain ⟨dv⟩ := d
    simp only [MidiMessage.constructible, U7.valid, decide_eq_true_eq] at hm
    refine ⟨fun _ _ => ?_, fun d' h => by simp at h, fun b h _ => by simp at h⟩
    simpa [MidiMessage.messageBytes, U7.toNat] using tryFrom_enc_mtc dv extra hm
  | SongPositionPointer p =>
    obtain ⟨dv⟩ := p
    simp only [MidiMessage.constructible, U14.valid, decide_eq_true_eq] at hm
    refine ⟨fun _ _ => ?_, fun d' h => by simp at h, fun b h _ => by simp at h⟩
    simpa [MidiMessage.messageBytes, splitData] using tryFrom_enc_spp dv extra hm
  | SongSelect s =>
    obtain ⟨sv⟩ := s
    simp only [MidiMessage.constructible, U7.valid, decide_eq_true_eq] at hm
    refine ⟨fun _ _ => ?_, fun d' h => by simp at h, fun b h _ => by simp at h⟩
    simpa [MidiMessage.messageBytes, U7.toNat] using tryFrom_enc_ss sv extra hm
  | Reserved b =>
    refine ⟨fun _ h => by simp [MidiMessage.isReservedMsg] at h,
      fun d h => by simp at h, ?_⟩
    intro b' h hfour
    injection h with h'
    subst h'
    rcases hfour with rfl | rfl | rfl | rfl <;> rfl
  | TuneRequest =>
    exact ⟨fun _ _ => rfl, fun d h => by simp at h, fun b h _ => by simp at h⟩
  | TimingClock =>
    exact ⟨fun _ _ => rfl, fun d h => by simp at h, fun b h _ => by simp at h⟩
  | Start =>
    exact ⟨fun _ _ => rfl, fun d h => by simp at h, fun b h _ => by simp at h⟩
  | Continue =>
    exact ⟨fun _ _ => rfl, fun d h => by simp at h, fun b h _ => by simp at h⟩
  | Stop =>
    exact ⟨fun _ _ => rfl, fun d h => by simp at h, fun b h _ => by simp at h⟩
  | ActiveSensing =>
    exact ⟨fun _ _ => rfl, fun d h => by simp at h, fun b h _ => by simp at h⟩
  | Reset =>
    exact ⟨fun _ _ => rfl, fun d h => by simp at h, fun b h _ => by simp at h⟩

/-- C2 (amended): encoding a constructible message into a sufficiently large
buffer succeeds, writes exactly `bytes_size` bytes (which equals the encoded
length), and decoding the resulting buffer recovers the message — except
that an `OwnedSysEx` decodes to the borrowed `SysEx` with equal payload, and
a `Reserved` round-trips (only) for the four reserved status bytes the
decoder itself produces.  The trailing buffer contents are ignored by the
decoder, so the bytes consumed are exactly the `bytes_size` ones written. -/
theorem roundtrip_amended (m : MidiMessage) (hm : m.constructible = true)
    (buf : List Nat) (hbuf : m.bytesSize ≤ buf.length) :
    m.copyToSlice buf = .ok (m.messageBytes ++ buf.drop m.bytesSize, m.bytesSize)
  ∧ m.messageBytes.length = m.bytesSize
  ∧ (m.isOwnedSysEx = false → m.isReservedMsg = false →
      MidiMessage.tryFrom (m.messageBytes ++ buf.drop m.bytesSize) = .ok m)
  ∧ (∀ d, m = .OwnedSysEx d →
      MidiMessage.tryFrom (m.messageBytes ++ buf.drop m.bytesSize) = .ok (.SysEx d))
  ∧ (∀ b, m = .Reserved b → (b = 0xF4 ∨ b = 0xF5 ∨ b = 0xF9 ∨ b = 0xFD) →
      MidiMessage.tryFrom (m.messageBytes ++ buf.drop m.bytesSize) = .ok m) := by
  have h := tryFrom_messageBytes m hm (buf.drop m.bytesSize)
  refine ⟨?_, messageBytes_length m, h.1, h.2.1, h.2.2⟩
  unfold MidiMessage.copyToSlice
  rw [if_neg (by omega)]

/-- C2 witness: a concrete NoteOn round-trips through a 3-byte buffer. -/
theorem roundtrip_amended_witness :
    MidiMessage.tryFrom
        ((MidiMessage.NoteOn .Ch1 ⟨60⟩ ⟨100⟩).messageBytes ++ List.drop 3 [0, 0, 0]) =
      .ok (.NoteOn .Ch1 ⟨60⟩ ⟨100⟩)
  ∧ (MidiMessage.NoteOn .Ch1 ⟨60⟩ ⟨100⟩).messageBytes.length = 3 :=
  have h := roundtrip_amended (.NoteOn .Ch1 ⟨60⟩ ⟨100⟩) (by decide) [0, 0, 0]
    (by decide)
  ⟨h.2.2.1 rfl rfl, h.2.1⟩

/-- C2 counterexample: the round-trip claim fails as stated.  An owned SysEx
encodes to `[0xF0, 0xF7]`, which decodes to the *borrowed* SysEx — not equal
to the original under the derived equality (the repository's own `to_owned`
test asserts this inequality).  And `Reserved(0xF6)` encodes to `[0xF6]`,
which decodes to `TuneRequest`. -/
theorem roundtrip_counterexample :
    (MidiMessage.OwnedSysEx []).constructible = true
  ∧ (MidiMessage.OwnedSysEx []).copyToSlice [0, 0] = .ok ([0xF0, 0xF7], 2)
  ∧ MidiMessage.tryFrom [0xF0, 0xF7] = .ok (.SysEx [])
  ∧ MidiMessage.tryFrom [0xF0, 0xF7] ≠ .ok (.OwnedSysEx [])
  ∧ (MidiMessage.Reserved 0xF6).constructible = true
  ∧ (MidiMessage.Reserved 0xF6).copyToSlice [0] = .ok ([0xF6], 1)
  ∧ MidiMessage.tryFrom [0xF6] = .ok .TuneRequest
  ∧ MidiMessage.tryFrom [0xF6] ≠ .ok (.Reserved 0xF6) := by decide

/-- C3: the `bytes_size` table of the current revision matches the claimed
sizes on every variant; but the legacy `wire_size` (src/lib.rs) returns 2
for `PitchBendChange` even though its own `write` emits 3 bytes for it —
the size function of that revision contradicts the claim (and its own
encoder). -/
theorem bytesSize_table_wireSize_bug :
    (∀ c n v, (MidiMessage.NoteOff c n v).bytesSize = 3)
  ∧ (∀ c n v, (MidiMessage.NoteOn c n v).bytesSize = 3)
  ∧ (∀ c n v, (MidiMessage.PolyphonicKeyPressure c n v).bytesSize = 3)
  ∧ (∀ c n v, (MidiMessage.ControlChange c n v).bytesSize = 3)
  ∧ (∀ c b, (MidiMessage.PitchBendChange c b).bytesSize = 3)
  ∧ (∀ p, (MidiMessage.SongPositionPointer p).bytesSize = 3)
  ∧ (∀ c p, (MidiMessage.ProgramChange c p).bytesSize = 2)
  ∧ (∀ c v, (MidiMessage.ChannelPressure c v).bytesSize = 2)
  ∧ (∀ d, (MidiMessage.MidiTimeCode d).bytesSize = 2)
  ∧ (∀ s, (MidiMessage.SongSelect s).bytesSize = 2)
  ∧ (∀ d, (MidiMessage.SysEx d).bytesSize = 2 + d.length)
  ∧ (∀ d, (MidiMessage.OwnedSysEx d).bytesSize = 2 + d.length)
  ∧ (∀ b, (MidiMessage.Reserved b).bytesSize = 1)
  ∧ MidiMessage.TuneRequest.bytesSize = 1
  ∧ MidiMessage.TimingClock.bytesSize = 1
  ∧ MidiMessage.Start.bytesSize = 1
  ∧ MidiMessage.Continue.bytesSize = 1
  ∧ MidiMessage.Stop.bytesSize = 1
  ∧ MidiMessage.ActiveSensing.bytesSize = 1
  ∧ MidiMessage.Reset.bytesSize = 1
  ∧ (Legacy.MidiMessage.PitchBendChange .Ch1 8192).wireSize = 2
  ∧ (Legacy.MidiMessage.PitchBendChange .Ch1 8192).writeBytes.length = 3 := by
  repeat' apply And.intro
  all_goals intros
  all_goals rfl

/-- C9: the current revision's `drop_unowned_sysex` returns `None` exactly
on a borrowed SysEx and `Some` of the *identical* message otherwise; the
legacy `drop_sysex` (src/lib.rs) instead maps `NoteOn` to `NoteOff` — its
`NoteOn` arm contradicts the claim (and its own documentation). -/
theorem dropSysex_noteOn_bug :
    (∀ m : MidiMessage,
      m.dropUnownedSysex = bif m.isBorrowedSysEx then none else some m)
  ∧ (Legacy.MidiMessage.NoteOn .Ch1 60 100).dropSysex =
      some (.NoteOff .Ch1 60 100)
  ∧ (Legacy.MidiMessage.NoteOn .Ch1 60 100).dropSysex ≠
      some (.NoteOn .Ch1 60 100)
  ∧ (∀ d, (Legacy.MidiMessage.SysEx d).dropSysex = none) := by
  refine ⟨fun m => ?_, by decide, by decide, fun d => rfl⟩
  cases m <;> rfl

/-- C10: the `io::Read` impl returns `Ok(0)` and leaves the buffer alone
when the destination is shorter than `bytes_size`, and otherwise returns
`Ok(bytes_size)` having written the wire bytes (the rest of the buffer
untouched). -/
theorem read_spec (m : MidiMessage) (buf : List Nat) :
    (buf.length < m.bytesSize → m.read buf = (buf, 0))
  ∧ (m.bytesSize ≤ buf.length →
      m.read buf = (m.messageBytes ++ buf.drop m.bytesSize, m.bytesSize)) := by
  constructor
  · intro h
    unfold MidiMessage.read MidiMessage.copyToSlice
    rw [if_pos h]
  · intro h
    unfold MidiMessage.read MidiMessage.copyToSlice
    rw [if_neg (by omega)]

/-- C10 witness: a TuneRequest against an empty and a 2-byte buffer. -/
theorem read_spec_witness :
    MidiMessage.TuneRequest.read [] = ([], 0)
  ∧ MidiMessage.TuneRequest.read [7, 9] = ([0xF6, 9], 1) :=
  ⟨(read_spec .TuneRequest []).1 (by decide), by
    have h := (read_spec .TuneRequest [7, 9]).2 (by decide)
    simpa [MidiMessage.messageBytes, MidiMessage.bytesSize] using h⟩

end Wmidi

namespace Wmidi.Smf

/-- `m &&& 0x7F` is `m mod 128`. -/
theorem land_7F (m : Nat) : m &&& 0x7F = m % 128 := by
  have h := Nat.and_pow_two_sub_one_eq_mod m 7
  norm_num at h
  exact h

/-- `m >>> 7` is `m / 128`. -/
theorem shiftRight_7 (m : Nat) : m >>> 7 = m / 128 := by
  have h := Nat.shiftRight_eq_div_pow m 7
  norm_num at h
  exact h

/-- The continuation-marked phase of the VLQ loop produces the base-128
digits of its argument (in push order: least significant first), every one
carrying the continuation bit. -/
theorem encodeVarintLoop_true_eq (m : Nat) (hm : 0 < m) :
    encodeVarintLoop m true =
      ((base128Digits m).map (fun d => d ||| 0x80)).reverse := by
  induction m using Nat.strong_induction_on with
  | _ m ih =>
    rw [encodeVarintLoop, base128Digits]
    simp only [land_7F, shiftRight_7, if_true]
    by_cases hlt : m < 128
    · rw [if_pos (by omega), if_pos hlt]
      simp [Nat.mod_eq_of_lt hlt]
    · rw [if_neg (by omega), if_neg hlt,
        ih (m / 128) (Nat.div_lt_self hm (by norm_num)) (by omega)]
      simp

/-- C6 main step: `encode_varint` agrees with the specification's digit
description on every input. -/
theorem encodeVarint_eq_specVlq (n : Nat) : encodeVarint n = specVlq n := by
  unfold encodeVarint specVlq
  rw [encodeVarintLoop]
  simp only [land_7F, shiftRight_7]
  by_cases hlt : n < 128
  · have hd : base128Digits n = [n] := by
      rw [base128Digits]
      rw [if_pos hlt]
    rw [if_pos (by omega)]
    simp [hd, Nat.mod_eq_of_lt hlt]
  · have hd : base128Digits n = base128Digits (n / 128) ++ [n % 128] := by
      rw [base128Digits]
      rw [if_neg hlt]
    rw [if_neg (by omega), encodeVarintLoop_true_eq (n / 128) (by omega)]
    simp [hd]

/-- The digit list really is the base-128 expansion of its argument. -/
theorem base128Digits_foldl (n : Nat) :
    (base128Digits n).foldl (fun acc d => acc * 128 + d) 0 = n := by
  induction n using Nat.strong_induction_on with
  | _ n ih =>
    rw [base128Digits]
    by_cases hlt : n < 128
    · rw [if_pos hlt]
      simp
    · rw [if_neg hlt]
      rw [List.foldl_append,
        ih (n / 128) (Nat.div_lt_self (by omega) (by norm_num))]
      simp
      omega

/-- Every base-128 digit is below 128 (so the continuation bit is clear on
the final emitted byte and set exactly on the marked ones). -/
theorem base128Digits_lt (n : Nat) : ∀ d ∈ base128Digits n, d < 128 := by
  induction n using Nat.strong_induction_on with
  | _ n ih =>
    rw [base128Digits]
    by_cases hlt : n < 128
    · rw [if_pos hlt]
      simpa using hlt
    · rw [if_neg hlt]
      intro d hd
      rcases List.mem_append.mp hd with h | h
      · exact ih (n / 128) (Nat.div_lt_self (by omega) (by norm_num)) d h
      · have : d = n % 128 := by simpa using h
        omega

/-- C6: `encode_varint` emits exactly the base-128 digits of its argument,
most significant first, continuation bit 0x80 set on every emitted byte
except the last (`specVlq` spells out that shape; the digit list satisfies
the base-128 expansion equation and every digit is below 128); and the
spec's worked examples 0, 127, 255 and 32768. -/
theorem encodeVarint_spec (n : Nat) :
    encodeVarint n = specVlq n
  ∧ (base128Digits n).foldl (fun acc d => acc * 128 + d) 0 = n
  ∧ (∀ d ∈ base128Digits n, d < 128)
  ∧ encodeVarint 0 = [0x00]
  ∧ encodeVarint 127 = [0x7F]
  ∧ encodeVarint 255 = [0x81, 0x7F]
  ∧ encodeVarint 32768 = [0x82, 0x80, 0x00] := by
  have h0 : base128Digits 0 = [0] := by
    rw [base128Digits]
    norm_num
  have h127 : base128Digits 127 = [127] := by
    rw [base128Digits]
    norm_num
  have h1 : base128Digits 1 = [1] := by
    rw [base128Digits]
    norm_num
  have h2 : base128Digits 2 = [2] := by
    rw [base128Digits]
    norm_num
  have h255 : base128Digits 255 = [1, 127] := by
    rw [base128Digits]
    norm_num [h1]
  have h256 : base128Digits 256 = [2, 0] := by
    rw [base128Digits]
    norm_num [h2]
  have h32768 : base128Digits 32768 = [2, 0, 0] := by
    rw [base128Digits]
    norm_num [h256]
  refine ⟨encodeVarint_eq_specVlq n, base128Digits_foldl n, base128Digits_lt n,
    ?_, ?_, ?_, ?_⟩
  · rw [encodeVarint_eq_specVlq]
    simp [specVlq, h0]
  · rw [encodeVarint_eq_specVlq]
    simp [specVlq, h127]
  · rw [encodeVarint_eq_specVlq]
    simp [specVlq, h255, show (1 ||| 128 : Nat) = 129 from by decide]
  · rw [encodeVarint_eq_specVlq]
    simp [specVlq, h32768, show (2 ||| 128 : Nat) = 130 from by decide,
      show (0 ||| 128 : Nat) = 128 from by decide]

/-- C6 witness: the 255 example, read off the main theorem at a concrete
input. -/
theorem encodeVarint_spec_witness : encodeVarint 255 = [0x81, 0x7F] :=
  (encodeVarint_spec 0).2.2.2.2.2.1

/-- C4: `Division::encode` keeps only the low **7** bits of the tick count
(`ticks & 0x7F`), not the low 15 bits the header format calls for: 960
ticks per beat (low 15 bits: 960, big-endian `[0x03, 0xC0]`) is written as
division 64 (`[0x00, 0x40]`) in the header chunk — contradicting the
documented meaning of `TicksPerBeat` even though validation admits any
positive `i16`. -/
theorem division_encode_truncation :
    (Division.TicksPerBeat 960).encode = 64
  ∧ 960 % 32768 = 960
  ∧ (Division.TicksPerBeat 960).encode ≠ 960 % 32768
  ∧ (SmfWriter.mk .SingleTrack (.TicksPerBeat 960) [[]]).encodeHeaderBytes =
      [0x4D, 0x54, 0x68, 0x64, 0, 0, 0, 6, 0, 0, 0, 1, 0x00, 0x40] := by decide

/-- C7: `SmfWriter::encode` validates before emitting anything: with format
`SingleTrack` and zero (resp. two or more) tracks it fails with
`SingleTrackFormatContainsNoTracks` (resp. `...MoreThanOneTrack`), and a
non-positive `TicksPerBeat` fails with `DivisionTicksMustBePositive` (the
format error taking precedence when both are violated) — in every failure
case the destination is returned untouched. -/
theorem encode_validation (sw : SmfWriter) (w : List Nat) :
    (sw.format = .SingleTrack → sw.tracks.length = 0 →
      sw.encode w = (w, .error .SingleTrackFormatContainsNoTracks))
  ∧ (sw.format = .SingleTrack → 1 < sw.tracks.length →
      sw.encode w = (w, .error .SingleTrackFormatContainsMoreThanOneTrack))
  ∧ (∀ t, sw.division = .TicksPerBeat t → t ≤ 0 →
      ∃ e, sw.encode w = (w, .error e))
  ∧ (∀ t, sw.division = .TicksPerBeat t → t ≤ 0 →
      (sw.format = .SingleTrack → sw.tracks.length = 1 →
        sw.encode w = (w, .error .DivisionTicksMustBePositive))
    ∧ (sw.format ≠ .SingleTrack →
        sw.encode w = (w, .error .DivisionTicksMustBePositive))) := by
  obtain ⟨fmt, dvn, tracks⟩ := sw
  obtain ⟨t0⟩ := dvn
  have hA : fmt = .SingleTrack → tracks.length = 0 →
      SmfWriter.encode ⟨fmt, .TicksPerBeat t0, tracks⟩ w =
        (w, .error .SingleTrackFormatContainsNoTracks) := by
    intro hf hlen
    subst hf
    unfold SmfWriter.encode SmfWriter.validate
    simp only [if_pos rfl, hlen]
    rfl
  have hB : fmt = .SingleTrack → 1 < tracks.length →
      SmfWriter.encode ⟨fmt, .TicksPerBeat t0, tracks⟩ w =
        (w, .error .SingleTrackFormatContainsMoreThanOneTrack) := by
    intro hf hlen
    subst hf
    obtain ⟨k, hk⟩ : ∃ k, tracks.length = k + 2 :=
      ⟨tracks.length - 2, by omega⟩
    unfold SmfWriter.encode SmfWriter.validate
    simp only [if_pos rfl, hk]
    rfl
  have hC : t0 ≤ 0 → fmt = .SingleTrack → tracks.length = 1 →
      SmfWriter.encode ⟨fmt, .TicksPerBeat t0, tracks⟩ w =
        (w, .error .DivisionTicksMustBePositive) := by
    intro hle hf hlen
    subst hf
    unfold SmfWriter.encode SmfWriter.validate
    simp only [if_pos rfl, hlen, if_pos hle]
    rfl
  have hD : t0 ≤ 0 → fmt ≠ .SingleTrack →
      SmfWriter.encode ⟨fmt, .TicksPerBeat t0, tracks⟩ w =
        (w, .error .DivisionTicksMustBePositive) := by
    intro hle hf
    unfold SmfWriter.encode SmfWriter.validate
    simp only [if_neg hf, if_pos hle]
  refine ⟨hA, hB, ?_, ?_⟩
  · intro t ht hle
    injection ht with ht'
    subst ht'
    by_cases hf : fmt = Format.SingleTrack
    · rcases hl : tracks.length with _ | n
      · exact ⟨_, hA hf hl⟩
      · rcases n with _ | n
        · exact ⟨_, hC hle hf hl⟩
        · exact ⟨_, hB hf (by omega)⟩
    · exact ⟨_, hD hle hf⟩
  · intro t ht hle
    injection ht with ht'
    subst ht'
    exact ⟨fun hf hlen => hC hle hf hlen, fun hf => hD hle hf⟩

/-- C7 witness: concrete writers exercising all three validation errors and
the untouched (empty) destination. -/
theorem encode_validation_witness :
    (SmfWriter.mk .SingleTrack (.TicksPerBeat 96) []).encode [] =
      ([], .error .SingleTrackFormatContainsNoTracks)
  ∧ (SmfWriter.mk .SingleTrack (.TicksPerBeat 96) [[], []]).encode [] =
      ([], .error .SingleTrackFormatContainsMoreThanOneTrack)
  ∧ (SmfWriter.mk .SingleTrack (.TicksPerBeat 0) [[]]).encode [] =
      ([], .error .DivisionTicksMustBePositive)
  ∧ (SmfWriter.mk .MultipleTracks (.TicksPerBeat (-3)) [[]]).encode [] =
      ([], .error .DivisionTicksMustBePositive) :=
  ⟨(encode_validation (SmfWriter.mk .SingleTrack (.TicksPerBeat 96) []) []).1
      rfl rfl,
   (encode_validation (SmfWriter.mk .SingleTrack (.TicksPerBeat 96) [[], []]) []).2.1
      rfl (by decide),
   ((encode_validation (SmfWriter.mk .SingleTrack (.TicksPerBeat 0) [[]]) []).2.2.2
      0 rfl (by decide)).1 rfl rfl,
   ((encode_validation (SmfWriter.mk .MultipleTracks (.TicksPerBeat (-3)) [[]]) []).2.2.2
      (-3) rfl (by decide)).2 (by decide)⟩

end Wmidi.Smf
